import Mathlib

/-!
Shallow embedding of the round-resolution engine of the War card game
(`run.py`): the card/deck model, the comparator, the power-card effect
engine, the war resolver and the round settlement step, together with
proofs of the specification's claims about them.

Python lists mutated in place are modelled by explicit state passing:
each function takes the players' states and returns the updated states.
Python integers are `Int` (chips and the `cards_won` counter may go
negative in the source).  The recursive `war_round` is modelled with an
explicit fuel parameter (`none` = fuel exhausted); termination is then a
theorem rather than an assumption.
-/

/-- A playing card: `suit` and `rank` are the strings the source uses. -/
structure Card where
  suit : String
  rank : String
deriving DecidableEq, Repr

instance : Inhabited Card := ⟨⟨"", ""⟩⟩

/-- `Card.SUITS` from the source. -/
def Card.SUITS : List String := ["♠", "♥", "♦", "♣"]

/-- `Card.RANKS` from the source: rank order 2 < 3 < ... < 10 < J < Q < K < A. -/
def Card.RANKS : List String :=
  ["2", "3", "4", "5", "6", "7", "8", "9", "10", "J", "Q", "K", "A"]

/-- Player state from the source's `Player` class.  The Boolean
`protected_flag` models the `protected` attribute set by the Ace effect
(`protected` is a reserved word in Lean). -/
structure Player where
  name : String
  deck : List Card
  chips : Int
  score : Int
  cards_won : Int
  protected_flag : Bool
deriving DecidableEq, Repr

/-- `get_card_value`: index of the card's rank in `Card.RANKS`. -/
def get_card_value (card : Card) : Nat :=
  Card.RANKS.indexOf card.rank

/-- `create_deck`: all 52 (suit, rank) combinations, suit-major order. -/
def create_deck : List Card :=
  (Card.SUITS.map (fun suit => Card.RANKS.map (fun rank => Card.mk suit rank))).flatten

/-- `draw_cards deck n` removes up to `n` cards from the front; first
component is the drawn cards, second the remaining deck. -/
def draw_cards (deck : List Card) (num_cards : Nat) : List Card × List Card :=
  (deck.take num_cards, deck.drop num_cards)

/-- Result of a comparison / round / war: `"Player"`, `"Computer"` or `"Tie"`. -/
inductive RoundResult
  | Player
  | Computer
  | Tie
deriving DecidableEq, Repr

/-- `compare_cards`: compares the two face-up cards by rank value only. -/
def compare_cards (player_card computer_card : Card) : RoundResult :=
  let player_value := get_card_value player_card
  let computer_value := get_card_value computer_card
  if player_value > computer_value then RoundResult.Player
  else if player_value < computer_value then RoundResult.Computer
  else RoundResult.Tie

/-- `resolve_war`: resolution when a war cannot continue.  Returns the
outcome together with the updated player and computer states. -/
def resolve_war (player computer : Player) (war_pile : List Card) (bet : Int) :
    RoundResult × Player × Player :=
  if player.deck.length < computer.deck.length then
    (RoundResult.Computer,
      { player with deck := [], chips := player.chips - bet },
      { computer with
        deck := (computer.deck ++ war_pile) ++ player.deck
        chips := computer.chips + bet
        cards_won := computer.cards_won + (war_pile.length : Int) })
  else if computer.deck.length < player.deck.length then
    (RoundResult.Player,
      { player with
        deck := (player.deck ++ war_pile) ++ computer.deck
        chips := player.chips + bet
        cards_won := player.cards_won + (war_pile.length : Int) },
      { computer with deck := [], chips := computer.chips - bet })
  else
    let mid := war_pile.length / 2
    (RoundResult.Tie,
      { player with
        deck := player.deck ++ war_pile.take mid
        cards_won := player.cards_won + ((war_pile.length / 2 : Nat) : Int) },
      { computer with
        deck := computer.deck ++ war_pile.drop mid
        cards_won := computer.cards_won + ((war_pile.length / 2 : Nat) : Int) })

/-- The card movements of the sufficient-cards branch of `war_round`
(source lines 170-174): each side contributes 3 face-down cards and one
face-up card, all of which are appended to the war pile. -/
structure WarStep where
  pile : List Card
  player_card : Card
  computer_card : Card
  player_rest : List Card
  computer_rest : List Card
deriving DecidableEq, Repr

/-- Draws 3 face-down cards and 1 face-up card from each deck and extends
the war pile with all of them, exactly as `war_round` does before the
face-up comparison. -/
def war_step (pdeck cdeck war_pile : List Card) : WarStep :=
  let pDrawn := draw_cards pdeck 3
  let cDrawn := draw_cards cdeck 3
  let pUp := draw_cards pDrawn.2 1
  let cUp := draw_cards cDrawn.2 1
  let player_card := pUp.1.headI
  let computer_card := cUp.1.headI
  { pile := ((war_pile ++ pDrawn.1) ++ cDrawn.1) ++ [player_card, computer_card]
    player_card := player_card
    computer_card := computer_card
    player_rest := pUp.2
    computer_rest := cUp.2 }

/-- `war_round` with explicit fuel bounding the recursion depth
(`none` = fuel exhausted; the source recursion has no explicit bound). -/
def war_round_fuel : Nat → Player → Player → List Card → Int →
    Option (RoundResult × Player × Player)
  | 0, _, _, _, _ => none
  | fuel + 1, player, computer, war_pile, bet =>
    if player.deck.length < 4 ∨ computer.deck.length < 4 then
      some (resolve_war player computer war_pile bet)
    else
      let s := war_step player.deck computer.deck war_pile
      match compare_cards s.player_card s.computer_card with
      | RoundResult.Player =>
          some (RoundResult.Player,
            { player with
              deck := s.player_rest ++ s.pile
              chips := player.chips + bet
              cards_won := player.cards_won + (s.pile.length : Int) },
            { computer with
              deck := s.computer_rest
              chips := computer.chips - bet })
      | RoundResult.Computer =>
          some (RoundResult.Computer,
            { player with
              deck := s.player_rest
              chips := player.chips - bet },
            { computer with
              deck := s.computer_rest ++ s.pile
              chips := computer.chips + bet
              cards_won := computer.cards_won + (s.pile.length : Int) })
      | RoundResult.Tie =>
          war_round_fuel fuel
            { player with deck := s.player_rest }
            { computer with deck := s.computer_rest }
            s.pile (bet * 2)

/-- `apply_power_card_effect`: dispatch on the played card's rank;
returns the bet multiplier and the updated player and computer states. -/
def apply_power_card_effect (card : Card) (player computer : Player) :
    Int × Player × Player :=
  if card.rank = "J" then
    (1,
     { player with
       deck := player.deck ++ (draw_cards computer.deck 2).1
       cards_won := player.cards_won + 2 },
     { computer with
       deck := (draw_cards computer.deck 2).2
       cards_won := computer.cards_won - 2 })
  else if card.rank = "Q" then
    (1, { player with chips := player.chips + 5 }, computer)
  else if card.rank = "K" then
    (2, player, computer)
  else if card.rank = "A" then
    (1, { player with protected_flag := true }, computer)
  else
    (1, player, computer)

/-- `MINIMUM_BET` from the source. -/
def MINIMUM_BET : Int := 1

/-- `calculate_max_bet`: Python `//` is floor division, i.e. `Int.fdiv`. -/
def calculate_max_bet (player_chips remaining_rounds : Int) : Int :=
  max MINIMUM_BET (min (Int.fdiv player_chips remaining_rounds) player_chips)

/-- The round-settlement step of `play_game` (source lines 643-664),
after both cards have been drawn and the power-card multiplier computed:
compare the cards, settle a decisive round, or start a war seeded with
the two tied cards and the capped war bet. -/
def round_settlement (fuel : Nat) (player computer : Player)
    (player_card computer_card : Card) (bet bet_multiplier : Int) :
    Option (RoundResult × Player × Player) :=
  match compare_cards player_card computer_card with
  | RoundResult.Player =>
      some (RoundResult.Player,
        { player with
          deck := player.deck ++ [player_card, computer_card]
          chips := player.chips + bet
          cards_won := player.cards_won + 2 },
        { computer with chips := computer.chips - bet })
  | RoundResult.Computer =>
      some (RoundResult.Computer,
        { player with chips := player.chips - bet },
        { computer with
          deck := computer.deck ++ [player_card, computer_card]
          chips := computer.chips + bet
          cards_won := computer.cards_won + 2 })
  | RoundResult.Tie =>
      war_round_fuel fuel player computer [player_card, computer_card]
        (min (min (bet * bet_multiplier) player.chips) computer.chips)

/-! ### Concrete sample states used by witnesses -/

/-- A sample card with the given rank (spade suit). -/
def sampleCard (r : String) : Card := ⟨"♠", r⟩

/-- A sample player with the given name and deck, at the initial chip count. -/
def samplePlayer (n : String) (d : List Card) : Player := ⟨n, d, 100, 0, 0, false⟩

/-! ### Claim theorems -/

/-- C7: `calculate_max_bet` equals the reference formula
`max(MINIMUM_BET, min(chips // remaining_rounds, chips))` (Python `//` is
floor division) for all integer chips and `remaining_rounds ≥ 1`; in
particular `calculate_max_bet 10 3 = 3` and `calculate_max_bet 2 5 = 1`. -/
theorem calculate_max_bet_spec (chips remaining_rounds : Int)
    (h : 1 ≤ remaining_rounds) :
    calculate_max_bet chips remaining_rounds
      = max MINIMUM_BET (min (Int.fdiv chips remaining_rounds) chips) ∧
    calculate_max_bet 10 3 = 3 ∧ calculate_max_bet 2 5 = 1 :=
  ⟨rfl, by decide, by decide⟩

/-- Witness for C7 at `chips = 10`, `remaining_rounds = 3`. -/
theorem calculate_max_bet_spec_witness :
    (calculate_max_bet 10 3
      = max MINIMUM_BET (min (Int.fdiv 10 3) 10) ∧
    calculate_max_bet 10 3 = 3 ∧ calculate_max_bet 2 5 = 1) :=
  calculate_max_bet_spec 10 3 (by decide)

/-- C9: applying the power-card effect to a King-ranked card returns
multiplier 2 and leaves both players entirely unchanged (chips, decks and
`cards_won` included). -/
theorem apply_power_card_effect_king (card : Card) (player computer : Player)
    (h : card.rank = "K") :
    apply_power_card_effect card player computer = (2, player, computer) := by
  simp [apply_power_card_effect, h]

/-- Witness for C9 at the king of spades and two sample players. -/
theorem apply_power_card_effect_king_witness :
    apply_power_card_effect (sampleCard "K")
        (samplePlayer "p" [sampleCard "2"]) (samplePlayer "c" [])
      = (2, samplePlayer "p" [sampleCard "2"], samplePlayer "c" []) :=
  apply_power_card_effect_king (sampleCard "K")
    (samplePlayer "p" [sampleCard "2"]) (samplePlayer "c" []) rfl

/-- C8: the comparator is suit-blind (replacing the suits of both cards
does not change the result), returns Tie exactly when the two ranks are
equal, and otherwise selects the side whose rank has the higher index in
the canonical rank order `Card.RANKS`. -/
theorem compare_cards_spec (a b : Card) (s t : String)
    (ha : a.rank ∈ Card.RANKS) (hb : b.rank ∈ Card.RANKS) :
    compare_cards ⟨s, a.rank⟩ ⟨t, b.rank⟩ = compare_cards a b ∧
    (compare_cards a b = RoundResult.Tie ↔ a.rank = b.rank) ∧
    (compare_cards a b = RoundResult.Player
      ↔ get_card_value b < get_card_value a) ∧
    (compare_cards a b = RoundResult.Computer
      ↔ get_card_value a < get_card_value b) := by
  have hinj : Card.RANKS.indexOf a.rank = Card.RANKS.indexOf b.rank ↔ a.rank = b.rank :=
    List.indexOf_inj ha hb
  refine ⟨rfl, ?_, ?_, ?_⟩
  · simp only [compare_cards, get_card_value]
    split_ifs with h1 h2
    · exact ⟨fun hx => absurd hx (by decide), fun he => absurd (hinj.mpr he) (by omega)⟩
    · exact ⟨fun hx => absurd hx (by decide), fun he => absurd (hinj.mpr he) (by omega)⟩
    · exact ⟨fun _ => hinj.mp (by omega), fun _ => rfl⟩
  · simp only [compare_cards, get_card_value]
    split_ifs with h1 h2
    · exact ⟨fun _ => h1, fun _ => rfl⟩
    · exact ⟨fun hx => absurd hx (by decide), fun hlt => absurd hlt (by omega)⟩
    · exact ⟨fun hx => absurd hx (by decide), fun hlt => absurd hlt (by omega)⟩
  · simp only [compare_cards, get_card_value]
    split_ifs with h1 h2
    · exact ⟨fun hx => absurd hx (by decide), fun hlt => absurd hlt (by omega)⟩
    · exact ⟨fun _ => h2, fun _ => rfl⟩
    · exact ⟨fun hx => absurd hx (by decide), fun hlt => absurd hlt (by omega)⟩

/-- Witness for C8 at two cards of equal rank 7 and fresh suits. -/
theorem compare_cards_spec_witness :
    compare_cards ⟨"♦", (⟨"♠", "7"⟩ : Card).rank⟩ ⟨"♣", (⟨"♥", "7"⟩ : Card).rank⟩
        = compare_cards ⟨"♠", "7"⟩ ⟨"♥", "7"⟩ ∧
    (compare_cards ⟨"♠", "7"⟩ ⟨"♥", "7"⟩ = RoundResult.Tie
      ↔ (⟨"♠", "7"⟩ : Card).rank = (⟨"♥", "7"⟩ : Card).rank) ∧
    (compare_cards ⟨"♠", "7"⟩ ⟨"♥", "7"⟩ = RoundResult.Player
      ↔ get_card_value ⟨"♥", "7"⟩ < get_card_value ⟨"♠", "7"⟩) ∧
    (compare_cards ⟨"♠", "7"⟩ ⟨"♥", "7"⟩ = RoundResult.Computer
      ↔ get_card_value ⟨"♠", "7"⟩ < get_card_value ⟨"♥", "7"⟩) :=
  compare_cards_spec ⟨"♠", "7"⟩ ⟨"♥", "7"⟩ "♦" "♣" (by decide) (by decide)

/-- A sample 3-card deck. -/
def pd3 : List Card := [sampleCard "2", sampleCard "3", sampleCard "4"]

/-- A sample 5-card deck. -/
def cd5 : List Card :=
  [sampleCard "5", sampleCard "6", sampleCard "7", sampleCard "8", sampleCard "9"]

/-- A sample 4-card deck whose 4th card is a 9. -/
def pd4 : List Card := [sampleCard "2", sampleCard "3", sampleCard "4", sampleCard "9"]

/-- A sample 4-card deck whose 4th card is an 8. -/
def cd4 : List Card := [sampleCard "5", sampleCard "6", sampleCard "7", sampleCard "8"]

/-- A sample 2-card war pile. -/
def wp2 : List Card := [sampleCard "A", ⟨"♥", "A"⟩]

/-- A sample 4-card war pile. -/
def wp4 : List Card := [sampleCard "2", sampleCard "3", sampleCard "4", sampleCard "5"]

/-- C2 (amended): in the sufficient-cards branch each side contributes 3
face-down cards and 1 face-up card and ALL of them enter the shared war
pile before the face-up comparison: the pile grows by exactly 8, and the
two face-up comparison cards are members of the pile, not held out. -/
theorem war_step_pile_spec (pdeck cdeck war_pile : List Card)
    (hp : 4 ≤ pdeck.length) (hc : 4 ≤ cdeck.length) :
    (war_step pdeck cdeck war_pile).pile
      = ((war_pile ++ pdeck.take 3) ++ cdeck.take 3)
          ++ [(war_step pdeck cdeck war_pile).player_card,
              (war_step pdeck cdeck war_pile).computer_card] ∧
    (war_step pdeck cdeck war_pile).pile.length = war_pile.length + 8 ∧
    (war_step pdeck cdeck war_pile).player_card
        ∈ (war_step pdeck cdeck war_pile).pile ∧
    (war_step pdeck cdeck war_pile).computer_card
        ∈ (war_step pdeck cdeck war_pile).pile ∧
    (war_step pdeck cdeck war_pile).player_rest = pdeck.drop 4 ∧
    (war_step pdeck cdeck war_pile).computer_rest = cdeck.drop 4 := by
  refine ⟨rfl, ?_, ?_, ?_, ?_, ?_⟩
  · simp [war_step, draw_cards]
    omega
  · simp [war_step, draw_cards]
  · simp [war_step, draw_cards]
  · simp [war_step, draw_cards, List.drop_drop]
  · simp [war_step, draw_cards, List.drop_drop]

/-- Witness for C2 (amended) at two concrete 4-card decks and an empty pile. -/
theorem war_step_pile_spec_witness :
    (war_step pd4 cd4 []).pile
      = ((([] : List Card) ++ pd4.take 3) ++ cd4.take 3)
          ++ [(war_step pd4 cd4 []).player_card,
              (war_step pd4 cd4 []).computer_card] ∧
    (war_step pd4 cd4 []).pile.length = ([] : List Card).length + 8 ∧
    (war_step pd4 cd4 []).player_card ∈ (war_step pd4 cd4 []).pile ∧
    (war_step pd4 cd4 []).computer_card ∈ (war_step pd4 cd4 []).pile ∧
    (war_step pd4 cd4 []).player_rest = pd4.drop 4 ∧
    (war_step pd4 cd4 []).computer_rest = cd4.drop 4 :=
  war_step_pile_spec pd4 cd4 [] (by decide) (by decide)

/-- Counterexample for C2 as stated: with two concrete 4-card decks and
an empty initial war pile, the pile at the moment of the face-up
comparison holds 8 cards, not 6. -/
theorem war_step_pile_counterexample :
    (war_step pd4 cd4 []).pile.length ≠ ([] : List Card).length + 6 := by
  decide

/-- C3 (amended): in every decisive (non-tie) round the winner's deck
gains both played cards, the winner's chips increase by the bet, the
winner's `cards_won` increases by 2 and the loser's chips decrease by
the bet; the two cards are always appended in the order player's card
then computer's card (which is loser-then-winner when the computer
wins, not winner-then-loser). -/
theorem round_settlement_decisive (fuel : Nat) (player computer : Player)
    (player_card computer_card : Card) (bet bet_multiplier : Int) :
    (compare_cards player_card computer_card = RoundResult.Player →
      round_settlement fuel player computer player_card computer_card bet bet_multiplier
        = some (RoundResult.Player,
            { player with
              deck := player.deck ++ [player_card, computer_card]
              chips := player.chips + bet
              cards_won := player.cards_won + 2 },
            { computer with chips := computer.chips - bet })) ∧
    (compare_cards player_card computer_card = RoundResult.Computer →
      round_settlement fuel player computer player_card computer_card bet bet_multiplier
        = some (RoundResult.Computer,
            { player with chips := player.chips - bet },
            { computer with
              deck := computer.deck ++ [player_card, computer_card]
              chips := computer.chips + bet
              cards_won := computer.cards_won + 2 })) := by
  constructor <;> intro hcmp <;> simp [round_settlement, hcmp]

/-- Witness for C3 (amended): the computer's 3 beats the player's 2 and
the computer's deck gains the player's card first, then its own. -/
theorem round_settlement_decisive_witness :
    compare_cards (sampleCard "2") (⟨"♥", "3"⟩ : Card) = RoundResult.Computer ∧
    round_settlement 1 (samplePlayer "p" []) (samplePlayer "c" [])
        (sampleCard "2") (⟨"♥", "3"⟩ : Card) 1 1
      = some (RoundResult.Computer,
          { samplePlayer "p" [] with chips := (samplePlayer "p" []).chips - 1 },
          { samplePlayer "c" [] with
            deck := (samplePlayer "c" []).deck ++ [sampleCard "2", (⟨"♥", "3"⟩ : Card)]
            chips := (samplePlayer "c" []).chips + 1
            cards_won := (samplePlayer "c" []).cards_won + 2 }) :=
  ⟨by decide,
   (round_settlement_decisive 1 (samplePlayer "p" []) (samplePlayer "c" [])
     (sampleCard "2") (⟨"♥", "3"⟩ : Card) 1 1).2 (by decide)⟩

/-- Counterexample for C3 as stated: when the computer wins the round
with a 3 over a 2, its deck does NOT gain the cards in winner-then-loser
order (it gains them player-then-computer). -/
theorem round_settlement_order_counterexample :
    (round_settlement 1 (samplePlayer "p" []) (samplePlayer "c" [])
        (sampleCard "2") (⟨"♥", "3"⟩ : Card) 1 1).map (fun r => r.2.2.deck)
      ≠ some [(⟨"♥", "3"⟩ : Card), sampleCard "2"] := by
  decide

/-- C4: when a war cannot continue (some deck is shorter than 4 cards)
and one side's deck is strictly smaller, the smaller side loses: the
larger side's deck absorbs the entire war pile and then the loser's
whole deck, the loser's deck becomes empty, the winner gains the bet in
chips and the pile size in `cards_won`, and the loser loses the bet. -/
theorem war_round_starvation (fuel : Nat) (player computer : Player)
    (war_pile : List Card) (bet : Int)
    (hshort : player.deck.length < 4 ∨ computer.deck.length < 4) :
    (player.deck.length < computer.deck.length →
      war_round_fuel (fuel + 1) player computer war_pile bet
        = some (RoundResult.Computer,
            { player with deck := [], chips := player.chips - bet },
            { computer with
              deck := (computer.deck ++ war_pile) ++ player.deck
              chips := computer.chips + bet
              cards_won := computer.cards_won + (war_pile.length : Int) })) ∧
    (computer.deck.length < player.deck.length →
      war_round_fuel (fuel + 1) player computer war_pile bet
        = some (RoundResult.Player,
            { player with
              deck := (player.deck ++ war_pile) ++ computer.deck
              chips := player.chips + bet
              cards_won := player.cards_won + (war_pile.length : Int) },
            { computer with deck := [], chips := computer.chips - bet })) := by
  constructor <;> intro hlt
  · simp only [war_round_fuel, if_pos hshort]
    rw [resolve_war, if_pos hlt]
  · simp only [war_round_fuel, if_pos hshort]
    rw [resolve_war, if_neg (by omega), if_pos hlt]

/-- Witness for C4: player deck of size 3 against computer deck of size
5 with a non-empty pile resolves to a computer win that absorbs the pile
and the player's cards. -/
theorem war_round_starvation_witness :
    ((samplePlayer "p" pd3).deck.length < 4
        ∨ (samplePlayer "c" cd5).deck.length < 4) ∧
    ((samplePlayer "p" pd3).deck.length < (samplePlayer "c" cd5).deck.length ∧
    war_round_fuel 1 (samplePlayer "p" pd3) (samplePlayer "c" cd5) wp2 7
      = some (RoundResult.Computer,
          { samplePlayer "p" pd3 with
            deck := []
            chips := (samplePlayer "p" pd3).chips - 7 },
          { samplePlayer "c" cd5 with
            deck := ((samplePlayer "c" cd5).deck ++ wp2) ++ (samplePlayer "p" pd3).deck
            chips := (samplePlayer "c" cd5).chips + 7
            cards_won := (samplePlayer "c" cd5).cards_won + (wp2.length : Int) })) :=
  ⟨by decide,
   by decide,
   (war_round_starvation 0 (samplePlayer "p" pd3) (samplePlayer "c" cd5) wp2 7
     (by decide)).1 (by decide)⟩

/-- C5: when a war cannot continue and both decks have exactly equal
size, the war pile is split by floor division between the two decks and
both `cards_won` counters, the outcome is Tie, and neither side's chips
change. -/
theorem war_round_equal_split (fuel : Nat) (player computer : Player)
    (war_pile : List Card) (bet : Int)
    (hlen : player.deck.length = computer.deck.length)
    (hshort : player.deck.length < 4) :
    war_round_fuel (fuel + 1) player computer war_pile bet
      = some (RoundResult.Tie,
          { player with
            deck := player.deck ++ war_pile.take (war_pile.length / 2)
            cards_won := player.cards_won + ((war_pile.length / 2 : Nat) : Int) },
          { computer with
            deck := computer.deck ++ war_pile.drop (war_pile.length / 2)
            cards_won := computer.cards_won + ((war_pile.length / 2 : Nat) : Int) }) := by
  simp only [war_round_fuel, if_pos (Or.inl hshort)]
  rw [resolve_war, if_neg (by omega), if_neg (by omega)]

/-- Witness for C5: both decks empty and a 4-card pile give a Tie in
which each deck gains exactly 2 cards, each `cards_won` gains exactly 2,
and no chips move. -/
theorem war_round_equal_split_witness :
    (samplePlayer "p" []).deck.length = (samplePlayer "c" []).deck.length ∧
    (samplePlayer "p" []).deck.length < 4 ∧
    war_round_fuel 1 (samplePlayer "p" []) (samplePlayer "c" []) wp4 7
      = some (RoundResult.Tie,
          { samplePlayer "p" [] with
            deck := (samplePlayer "p" []).deck ++ wp4.take (wp4.length / 2)
            cards_won := (samplePlayer "p" []).cards_won + ((wp4.length / 2 : Nat) : Int) },
          { samplePlayer "c" [] with
            deck := (samplePlayer "c" []).deck ++ wp4.drop (wp4.length / 2)
            cards_won := (samplePlayer "c" []).cards_won + ((wp4.length / 2 : Nat) : Int) }) ∧
    (wp4.take (wp4.length / 2)).length = 2 ∧
    (wp4.drop (wp4.length / 2)).length = 2 :=
  ⟨rfl, by decide,
   war_round_equal_split 0 (samplePlayer "p" []) (samplePlayer "c" []) wp4 7
     rfl (by decide),
   by decide, by decide⟩

/-! ### Helper lemmas for the war recursion -/

/-- The head of a one-card draw is the head of the deck. -/
lemma headI_take_one (l : List Card) : (l.take 1).headI = l.headI := by
  cases l <;> simp

/-- Projection of `war_step`: the remaining player deck has lost 4 cards. -/
lemma war_step_player_rest (pdeck cdeck wp : List Card) :
    (war_step pdeck cdeck wp).player_rest = pdeck.drop 4 := by
  simp [war_step, draw_cards, List.drop_drop]

/-- Projection of `war_step`: the remaining computer deck has lost 4 cards. -/
lemma war_step_computer_rest (pdeck cdeck wp : List Card) :
    (war_step pdeck cdeck wp).computer_rest = cdeck.drop 4 := by
  simp [war_step, draw_cards, List.drop_drop]

/-- Projection of `war_step`: the extended pile, written with appends only. -/
lemma war_step_pile_eq (pdeck cdeck wp : List Card) :
    (war_step pdeck cdeck wp).pile
      = ((wp ++ pdeck.take 3) ++ cdeck.take 3)
          ++ ([(pdeck.drop 3).headI] ++ [(cdeck.drop 3).headI]) := by
  simp [war_step, draw_cards, headI_take_one]

/-- A deck of at least 4 cards splits as 3 face-down cards, the face-up
card, and the rest. -/
lemma take3_headI_drop4 (l : List Card) (h : 4 ≤ l.length) :
    (l.take 3 ++ [(l.drop 3).headI]) ++ l.drop 4 = l := by
  rcases l with _ | ⟨a, _ | ⟨b, _ | ⟨c, _ | ⟨d, t⟩⟩⟩⟩ <;> simp_all

/-- `resolve_war` conserves the multiset of cards: the two output decks
together hold exactly the input decks plus the war pile. -/
lemma resolve_war_conserves (player computer : Player) (war_pile : List Card)
    (bet : Int) :
    ((resolve_war player computer war_pile bet).2.1.deck : Multiset Card)
      + ((resolve_war player computer war_pile bet).2.2.deck : Multiset Card)
      = ↑player.deck + ↑computer.deck + ↑war_pile := by
  rw [resolve_war]
  split_ifs with h1 h2
  · simp only [← Multiset.coe_add, Multiset.coe_nil]
    abel
  · simp only [← Multiset.coe_add, Multiset.coe_nil]
    abel
  · conv_rhs => rw [← List.take_append_drop (war_pile.length / 2) war_pile]
    simp only [← Multiset.coe_add]
    abel

/-- `resolve_war` moves exactly the bet between the two chip counts, so
their sum is unchanged. -/
lemma resolve_war_chip_sum (player computer : Player) (war_pile : List Card)
    (bet : Int) :
    (resolve_war player computer war_pile bet).2.1.chips
      + (resolve_war player computer war_pile bet).2.2.chips
      = player.chips + computer.chips := by
  rw [resolve_war]
  split_ifs with h1 h2 <;> simp

/-- Card conservation through the fuelled war recursion: whenever
`war_round_fuel` returns, the two output decks together hold exactly the
input decks plus the war pile. -/
lemma war_round_fuel_conserves :
    ∀ (fuel : Nat) (player computer : Player) (war_pile : List Card) (bet : Int)
      (out : RoundResult × Player × Player),
      war_round_fuel fuel player computer war_pile bet = some out →
      ((out.2.1.deck : Multiset Card) + (out.2.2.deck : Multiset Card))
        = ↑player.deck + ↑computer.deck + ↑war_pile := by
  intro fuel
  induction fuel with
  | zero => intro p c wp bet out h; simp [war_round_fuel] at h
  | succ n ih =>
    intro p c wp bet out h
    simp only [war_round_fuel] at h
    by_cases hshort : p.deck.length < 4 ∨ c.deck.length < 4
    · rw [if_pos hshort] at h
      injection h with h'
      subst h'
      exact resolve_war_conserves p c wp bet
    · rw [if_neg hshort] at h
      have hp : 4 ≤ p.deck.length := by omega
      have hc : 4 ≤ c.deck.length := by omega
      rcases hcmp : compare_cards (war_step p.deck c.deck wp).player_card
          (war_step p.deck c.deck wp).computer_card with _ | _ | _ <;>
        rw [hcmp] at h
      · injection h with h'
        subst h'
        simp only [war_step_player_rest, war_step_computer_rest, war_step_pile_eq]
        conv_rhs => rw [← take3_headI_drop4 p.deck hp, ← take3_headI_drop4 c.deck hc]
        simp only [← Multiset.coe_add]
        abel
      · injection h with h'
        subst h'
        simp only [war_step_player_rest, war_step_computer_rest, war_step_pile_eq]
        conv_rhs => rw [← take3_headI_drop4 p.deck hp, ← take3_headI_drop4 c.deck hc]
        simp only [← Multiset.coe_add]
        abel
      · have := ih _ _ _ _ _ h
        rw [this]
        simp only [war_step_player_rest, war_step_computer_rest, war_step_pile_eq]
        conv_rhs => rw [← take3_headI_drop4 p.deck hp, ← take3_headI_drop4 c.deck hc]
        simp only [← Multiset.coe_add]
        abel

/-- Chip transfers through the fuelled war recursion are zero-sum. -/
lemma war_round_fuel_chip_sum :
    ∀ (fuel : Nat) (player computer : Player) (war_pile : List Card) (bet : Int)
      (out : RoundResult × Player × Player),
      war_round_fuel fuel player computer war_pile bet = some out →
      out.2.1.chips + out.2.2.chips = player.chips + computer.chips := by
  intro fuel
  induction fuel with
  | zero => intro p c wp bet out h; simp [war_round_fuel] at h
  | succ n ih =>
    intro p c wp bet out h
    simp only [war_round_fuel] at h
    by_cases hshort : p.deck.length < 4 ∨ c.deck.length < 4
    · rw [if_pos hshort] at h
      injection h with h'
      subst h'
      exact resolve_war_chip_sum p c wp bet
    · rw [if_neg hshort] at h
      rcases hcmp : compare_cards (war_step p.deck c.deck wp).player_card
          (war_step p.deck c.deck wp).computer_card with _ | _ | _ <;>
        rw [hcmp] at h
      · injection h with h'
        subst h'
        simp
      · injection h with h'
        subst h'
        simp
      · have hrec := ih _ _ _ _ _ h
        simpa using hrec

/-- The fuelled war recursion returns a result whenever the fuel
dominates a quarter of the player's deck: each renewed tie removes 4
cards from the player's deck, so recursion depth is bounded by deck
exhaustion. -/
lemma war_round_fuel_total :
    ∀ (fuel : Nat) (player computer : Player) (war_pile : List Card) (bet : Int),
      player.deck.length < 4 * fuel →
      (war_round_fuel fuel player computer war_pile bet).isSome = true := by
  intro fuel
  induction fuel with
  | zero => intro p c wp bet h; exact absurd h (by omega)
  | succ n ih =>
    intro p c wp bet h
    simp only [war_round_fuel]
    by_cases hshort : p.deck.length < 4 ∨ c.deck.length < 4
    · rw [if_pos hshort]
      rfl
    · rw [if_neg hshort]
      rcases hcmp : compare_cards (war_step p.deck c.deck wp).player_card
          (war_step p.deck c.deck wp).computer_card with _ | _ | _
      · rfl
      · rfl
      · apply ih
        simp only [war_step_player_rest, List.length_drop]
        omega

/-- C1: card conservation through war resolution — for any invocation of
the war resolver (the fuelled `war_round` including its recursive calls,
and `resolve_war` to which it delegates), the multiset of cards across
the player's deck, the computer's deck and the war pile before the call
equals the multiset across the two decks after it returns: no card is
created, destroyed, or duplicated. -/
theorem war_conservation :
    (∀ (player computer : Player) (war_pile : List Card) (bet : Int),
      ((resolve_war player computer war_pile bet).2.1.deck : Multiset Card)
        + ((resolve_war player computer war_pile bet).2.2.deck : Multiset Card)
        = ↑player.deck + ↑computer.deck + ↑war_pile) ∧
    (∀ (fuel : Nat) (player computer : Player) (war_pile : List Card) (bet : Int)
        (out : RoundResult × Player × Player),
      war_round_fuel fuel player computer war_pile bet = some out →
      ((out.2.1.deck : Multiset Card) + (out.2.2.deck : Multiset Card))
        = ↑player.deck + ↑computer.deck + ↑war_pile) :=
  ⟨resolve_war_conserves, war_round_fuel_conserves⟩

/-- The concrete outcome of a full war round on two 4-card decks, used
by the conservation witness. -/
def c1Out : RoundResult × Player × Player :=
  (RoundResult.Player,
   ⟨"p", [sampleCard "2", sampleCard "3", sampleCard "4", sampleCard "5",
          sampleCard "6", sampleCard "7", sampleCard "9", sampleCard "8"],
    105, 0, 8, false⟩,
   ⟨"c", [], 95, 0, 0, false⟩)

/-- Witness for C1 on a concrete war: both decks of 4 cards, empty
initial pile; the 8 cards played all end up in the winner's deck. -/
theorem war_conservation_witness :
    war_round_fuel 2 (samplePlayer "p" pd4) (samplePlayer "c" cd4) [] 5
        = some c1Out ∧
    ((c1Out.2.1.deck : Multiset Card) + (c1Out.2.2.deck : Multiset Card)
      = ↑(samplePlayer "p" pd4).deck + ↑(samplePlayer "c" cd4).deck
        + ↑([] : List Card)) :=
  ⟨by decide,
   war_conservation.2 2 (samplePlayer "p" pd4) (samplePlayer "c" cd4) [] 5
     c1Out (by decide)⟩

/-- C10: chip transfers during war resolution are zero-sum — for any
call to the fuelled `war_round` or to `resolve_war`, with any bet, the
sum of the two players' chips after the call equals the sum before it. -/
theorem war_zero_sum :
    (∀ (player computer : Player) (war_pile : List Card) (bet : Int),
      (resolve_war player computer war_pile bet).2.1.chips
        + (resolve_war player computer war_pile bet).2.2.chips
        = player.chips + computer.chips) ∧
    (∀ (fuel : Nat) (player computer : Player) (war_pile : List Card) (bet : Int)
        (out : RoundResult × Player × Player),
      war_round_fuel fuel player computer war_pile bet = some out →
      out.2.1.chips + out.2.2.chips = player.chips + computer.chips) :=
  ⟨resolve_war_chip_sum, war_round_fuel_chip_sum⟩

/-- The concrete outcome of a starvation war, used by the zero-sum
witness. -/
def c10Out : RoundResult × Player × Player :=
  (RoundResult.Computer,
   ⟨"p", [], 91, 0, 0, false⟩,
   ⟨"c", (cd5 ++ wp2) ++ pd3, 109, 0, 2, false⟩)

/-- Witness for C10 on a concrete war with bet 9: 9 chips move from the
player to the computer and the total stays 200. -/
theorem war_zero_sum_witness :
    war_round_fuel 1 (samplePlayer "p" pd3) (samplePlayer "c" cd5) wp2 9
        = some c10Out ∧
    c10Out.2.1.chips + c10Out.2.2.chips
      = (samplePlayer "p" pd3).chips + (samplePlayer "c" cd5).chips :=
  ⟨by decide,
   war_zero_sum.2 1 (samplePlayer "p" pd3) (samplePlayer "c" cd5) wp2 9
     c10Out (by decide)⟩

/-- C6: termination of the war recursion — `war_round_fuel` returns a
result (never runs out of fuel) once the fuel exceeds a quarter of the
player's deck size, because each renewed tie removes 4 cards from each
deck before recursing and a deck shorter than 4 cards is resolved
immediately by `resolve_war` without recursing; so the recursion depth
is bounded only by deck exhaustion. -/
theorem war_round_terminates (player computer : Player) (war_pile : List Card)
    (bet : Int) :
    (war_round_fuel (player.deck.length / 4 + 1) player computer war_pile
      bet).isSome = true :=
  war_round_fuel_total (player.deck.length / 4 + 1) player computer war_pile bet
    (by omega)
